import Mathlib

/-!
Shallow embedding of the activation-function module `functions.py` of the
AIClasses repository.

Python runtime values are modelled by `PyVal`: machine integers as `ℤ`,
Python and NumPy floating-point values idealised as real numbers `ℝ`
(rounding is not modelled; the runtime kind of every value is tracked
exactly), lists and NumPy one-dimensional arrays as Lean lists of values.
Fallible Python code is modelled in the `Except PyErr` monad, with one
error constructor per Python exception class that the code can raise.
NumPy scalar type promotion follows the NEP 50 rules (a Python `int` or
`float` operand is "weak" and does not widen a NumPy operand's kind).
-/

namespace Functions

/-- NumPy fixed-width numeric kinds imported by the module
(`float16 ... uint8` in `__nptypes`). -/
inductive NpKind
  | f16 | f32 | f64
  | i8 | i16 | i32 | i64
  | u8 | u16 | u32 | u64
  deriving DecidableEq, Repr

/-- Python runtime values relevant to the module: scalars of the numeric
tower, strings (a representative non-numeric type), lists, NumPy arrays,
and `None`. Numeric payloads are idealised as exact reals. -/
inductive PyVal
  | int (n : ℤ)
  | bool (b : Bool)
  | float (r : ℝ)
  | np (k : NpKind) (r : ℝ)
  | str (s : String)
  | list (xs : List PyVal)
  | ndarray (xs : List PyVal)
  | pyNone

/-- Python runtime type descriptors, as used in accepted-type tuples. -/
inductive PyType
  | tInt | tBool | tFloat
  | tNp (k : NpKind)
  | tStr | tList | tNdarray | tNoneType
  deriving DecidableEq, Repr

/-- Exception classes the embedded code can raise. -/
inductive PyErr
  | typeMismatch
  | typeError
  | indexError
  | zeroDivisionError
  deriving DecidableEq, Repr

/-- Runtime type of a value, `type(v)` in Python. Note that a `bool` has
runtime type `tBool`, which is a distinct descriptor from `tInt`. -/
def runtimeType : PyVal → PyType
  | .int _ => .tInt
  | .bool _ => .tBool
  | .float _ => .tFloat
  | .np k _ => .tNp k
  | .str _ => .tStr
  | .list _ => .tList
  | .ndarray _ => .tNdarray
  | .pyNone => .tNoneType

/-- Modelled from the spec: `classtools.Verifiers.verify_type` is imported
from the external `classtools` package and its source is not part of this
repository. Per the spec it checks membership of the value's runtime type
in the accepted set by exact instance type match with no coercion (a
boolean is not treated as an integer), returns the value unchanged on
success and fails with a `TypeError`-kind error (`TypeMismatch`) on
mismatch. -/
def verify_type (value : PyVal) (accepted : List PyType) : Except PyErr PyVal :=
  if runtimeType value ∈ accepted then .ok value else .error .typeMismatch

/-- Numeric interpretation of a value for Python arithmetic: integers,
booleans (`True` counts as 1), Python floats and NumPy scalars are
numeric; everything else is not. -/
def toR : PyVal → Option ℝ
  | .int n => some (n : ℝ)
  | .bool b => some (if b then 1 else 0)
  | .float r => some r
  | .np _ r => some r
  | _ => none

/-- List of the accepted NumPy type descriptors, in the order of the
module-level tuple `__nptypes`. -/
def nptypes : List PyType :=
  [.tNp .f16, .tNp .f32, .tNp .f64, .tNp .i16, .tNp .i32, .tNp .i64,
   .tNp .i8, .tNp .u16, .tNp .u32, .tNp .u64, .tNp .u8]

/-- Accepted-type tuple `(int, float, *__nptypes)` used by all scalar
functions. -/
def numTypes : List PyType := .tInt :: .tFloat :: nptypes

/-- Model of `math.exp`: accepts any numeric value, converts it to a C
double and returns a Python float; raises `TypeError` on non-numeric
arguments. Only the real value is needed here since the result kind is
always a Python float. -/
noncomputable def pyExpR (v : PyVal) : Except PyErr ℝ :=
  match toR v with
  | some r => .ok (Real.exp r)
  | none => .error .typeError

/-- Python float division: raises `ZeroDivisionError` on a zero
denominator, otherwise divides. -/
noncomputable def pyDivFloat (num den : ℝ) : Except PyErr ℝ :=
  if den = 0 then .error .zeroDivisionError else .ok (num / den)

/-- Lookup of a list at an already-normalised (non-negative) position:
`IndexError` when the position is negative or past the end. -/
def pyIndexAt {α : Type} (xs : List α) (i : ℤ) : Except PyErr α :=
  if 0 ≤ i then
    match xs[i.toNat]? with
    | some a => .ok a
    | none => .error .indexError
  else .error .indexError

/-- Python list indexing `xs[n]`: negative indices count from the end;
an index outside the range raises `IndexError`. -/
def pyIndex {α : Type} (xs : List α) (n : ℤ) : Except PyErr α :=
  pyIndexAt xs (if n < 0 then n + xs.length else n)

/-- Elements of a sequence value (a list or a NumPy array). -/
def pyElems : PyVal → Option (List PyVal)
  | .list xs => some xs
  | .ndarray xs => some xs
  | _ => none

/-- Left-to-right evaluation of a Python list comprehension
`[f(i) for i in xs]` whose body may raise: the first exception
propagates, otherwise the list of results is returned. -/
def mapExcept {α β : Type} (f : α → Except PyErr β) : List α → Except PyErr (List β)
  | [] => .ok []
  | a :: as =>
    match f a, mapExcept f as with
    | .ok b, .ok bs => .ok (b :: bs)
    | .error e, _ => .error e
    | .ok _, .error e => .error e

/-- Softmax distribution of a list of reals, as the source computes it:
the exponential of each element divided by the sum of all
exponentials. -/
noncomputable def distrOf (rs : List ℝ) : List ℝ :=
  rs.map (fun r => Real.exp r / (rs.map Real.exp).sum)

/-- Numeric interpretation of every element of a list, `none` when some
element is not numeric. -/
def toRs : List PyVal → Option (List ℝ)
  | [] => some []
  | a :: as =>
    match toR a, toRs as with
    | some r, some rs => some (r :: rs)
    | _, _ => none

/-- Bit width of a NumPy kind. -/
def NpKind.bits : NpKind → Nat
  | .f16 => 16 | .f32 => 32 | .f64 => 64
  | .i8 => 8 | .i16 => 16 | .i32 => 32 | .i64 => 64
  | .u8 => 8 | .u16 => 16 | .u32 => 32 | .u64 => 64

/-- Whether a NumPy kind is a floating-point kind. -/
def NpKind.isFloat : NpKind → Bool
  | .f16 | .f32 | .f64 => true
  | _ => false

/-- Whether a NumPy kind is an unsigned integer kind. -/
def NpKind.isUint : NpKind → Bool
  | .u8 | .u16 | .u32 | .u64 => true
  | _ => false

/-- Smallest accepted float kind with at least the given width. -/
def floatOfBits (b : Nat) : NpKind :=
  if b ≤ 16 then .f16 else if b ≤ 32 then .f32 else .f64

/-- Smallest accepted signed integer kind with at least the given width. -/
def intOfBits (b : Nat) : NpKind :=
  if b ≤ 8 then .i8 else if b ≤ 16 then .i16 else if b ≤ 32 then .i32 else .i64

/-- Smallest accepted unsigned integer kind with at least the given width. -/
def uintOfBits (b : Nat) : NpKind :=
  if b ≤ 8 then .u8 else if b ≤ 16 then .u16 else if b ≤ 32 then .u32 else .u64

/-- Width of the float kind needed to hold every integer of the given
integer width exactly enough for NumPy promotion (8 → 16, 16 → 32,
wider → 64). -/
def floatBitsNeeded (b : Nat) : Nat :=
  if b ≤ 8 then 16 else if b ≤ 16 then 32 else 64

/-- NumPy type promotion for two NumPy scalar operands
(`numpy.promote_types` restricted to the kinds in `__nptypes`). -/
def promoteNp (a b : NpKind) : NpKind :=
  if a.isFloat && b.isFloat then floatOfBits (max a.bits b.bits)
  else if a.isFloat then floatOfBits (max a.bits (floatBitsNeeded b.bits))
  else if b.isFloat then floatOfBits (max b.bits (floatBitsNeeded a.bits))
  else if a.isUint && b.isUint then uintOfBits (max a.bits b.bits)
  else if !a.isUint && !b.isUint then intOfBits (max a.bits b.bits)
  else
    -- one signed, one unsigned
    let s := if a.isUint then b else a
    let u := if a.isUint then a else b
    if u.bits = 64 then .f64
    else if s.bits > u.bits then intOfBits s.bits
    else intOfBits (max s.bits (2 * u.bits))

/-- Result kind of a NumPy scalar combined with a (weak) Python float:
float kinds are preserved, integer kinds promote to `float64`. -/
def NpKind.withPyFloat (k : NpKind) : NpKind :=
  if k.isFloat then k else .f64

/-- Python multiplication `a * b` on the numeric tower, tracking the
runtime kind of the result: `int * int` is an `int`, any Python `float`
operand makes a Python `float`, a NumPy operand keeps (or promotes) its
NumPy kind per NEP 50, and non-numeric operands raise `TypeError`.
Booleans behave as the integers 0 and 1. -/
noncomputable def pyMul (a b : PyVal) : Except PyErr PyVal :=
  match a, b with
  | .int m, .int n => .ok (.int (m * n))
  | .int m, .bool c => .ok (.int (m * (if c then 1 else 0)))
  | .bool c, .int n => .ok (.int ((if c then 1 else 0) * n))
  | .bool c, .bool d => .ok (.int ((if c then 1 else 0) * (if d then 1 else 0)))
  | .int m, .float r => .ok (.float (m * r))
  | .float r, .int n => .ok (.float (r * n))
  | .bool c, .float r => .ok (.float ((if c then 1 else 0) * r))
  | .float r, .bool d => .ok (.float (r * (if d then 1 else 0)))
  | .float r, .float s => .ok (.float (r * s))
  | .np k r, .int n => .ok (.np k (r * n))
  | .int m, .np k r => .ok (.np k (m * r))
  | .np k r, .bool c => .ok (.np k (r * (if c then 1 else 0)))
  | .bool c, .np k r => .ok (.np k ((if c then 1 else 0) * r))
  | .np k r, .float s => .ok (.np k.withPyFloat (r * s))
  | .float s, .np k r => .ok (.np k.withPyFloat (s * r))
  | .np k r, .np l s => .ok (.np (promoteNp k l) (r * s))
  | _, _ => .error .typeError

/-- Python true division by the literal integer 10 (`x / 10` in
`leaky_relu`): an `int` or a `bool` gives a Python `float`, a Python
`float` stays a `float`, a NumPy float kind is preserved and a NumPy
integer kind promotes to `float64`. The divisor is nonzero so no
`ZeroDivisionError` can occur. -/
noncomputable def pyDivTen : PyVal → Except PyErr PyVal
  | .int n => .ok (.float ((n : ℝ) / 10))
  | .bool c => .ok (.float ((if c then (1 : ℝ) else 0) / 10))
  | .float r => .ok (.float (r / 10))
  | .np k r => .ok (.np (if k.isFloat then k else .f64) (r / 10))
  | _ => .error .typeError

/-- Heaviside step function, `step(x, threshold=0)` of the source:
validates both arguments against `(int, float, *__nptypes)` and returns
the Python integer 1 if `x >= threshold` else 0. -/
noncomputable def step (x : PyVal) (threshold : PyVal := .int 0) :
    Except PyErr PyVal := do
  let x ← verify_type x numTypes
  let threshold ← verify_type threshold numTypes
  match toR x, toR threshold with
  | some a, some b => pure (.int (if b ≤ a then 1 else 0))
  | _, _ => .error .typeError

/-- Sigmoid, `sigmoid(x)` of the source: `1 / (1 + exp(-x))`, a Python
float. The denominator `1 + exp(-x)` is at least 1 so the division cannot
raise. -/
noncomputable def sigmoid (x : PyVal) : Except PyErr PyVal := do
  let x ← verify_type x numTypes
  match toR x with
  | some v => pure (.float (1 / (1 + Real.exp (-v))))
  | none => .error .typeError

/-- Rectified linear unit, `relu(x)` of the source: `max(0, x)`. Python's
`max` returns its second argument only when it is strictly greater, so
the result is `x` itself when `x > 0` and the Python integer 0
otherwise. -/
noncomputable def relu (x : PyVal) : Except PyErr PyVal := do
  let x ← verify_type x numTypes
  match toR x with
  | some v => pure (if 0 < v then x else .int 0)
  | none => .error .typeError

/-- Leaky rectified linear unit, `leaky_relu(x)` of the source:
`x if x >= 0 else x / 10`. -/
noncomputable def leaky_relu (x : PyVal) : Except PyErr PyVal := do
  let x ← verify_type x numTypes
  match toR x with
  | some v => if 0 ≤ v then pure x else pyDivTen x
  | none => .error .typeError

/-- Hyperbolic tangent, `tanh(x)` of the source, computed by the direct
exponential formula `(exp(x) - exp(-x)) / (exp(x) + exp(-x))`. The
denominator is positive so the division cannot raise. -/
noncomputable def tanh (x : PyVal) : Except PyErr PyVal := do
  let x ← verify_type x numTypes
  match toR x with
  | some v =>
      pure (.float ((Real.exp v - Real.exp (-v)) / (Real.exp v + Real.exp (-v))))
  | none => .error .typeError

/-- Softmax, `softmax(x, n=None)` of the source: validates that `x` is a
`list` or an `ndarray`, computes `e_x = [exp(i) for i in x]`,
`sum_e_x = sum(e_x)` and `distr = [i / sum_e_x for i in e_x]`; when `n`
is given it is validated as an `int` only at that point and the
single-element list `[distr[n]]` is returned, otherwise the whole
distribution is returned. -/
noncomputable def softmax (x : PyVal) (n : Option PyVal := Option.none) :
    Except PyErr PyVal := do
  let x ← verify_type x [.tList, .tNdarray]
  match pyElems x with
  | some xs => do
      let e_x ← mapExcept pyExpR xs
      let sum_e_x : ℝ := e_x.sum
      let distr ← mapExcept (fun i => pyDivFloat i sum_e_x) e_x
      match n with
      | Option.none => pure (.list (distr.map PyVal.float))
      | Option.some nv => do
          let _ ← verify_type nv [.tInt]
          match nv with
          | .int m => do
              let d ← pyIndex distr m
              pure (.list [PyVal.float d])
          | _ => .error .typeMismatch
  | Option.none => .error .typeError

/-- Parametric rectified linear unit, `prelu(x, lp)` of the source:
`max(lp * x, x)`; Python's `max` returns `x` only when `x` is strictly
greater than `lp * x`, otherwise the product. -/
noncomputable def prelu (x lp : PyVal) : Except PyErr PyVal := do
  let x ← verify_type x numTypes
  let lp ← verify_type lp numTypes
  let p ← pyMul lp x
  match toR p, toR x with
  | some pv, some xv => pure (if pv < xv then x else p)
  | _, _ => .error .typeError

/-- Exponential linear unit, `elu(x, alpha)` of the source:
`x if x > 0 else alpha * (exp(x) - 1)`; the multiplication by the Python
float `exp(x) - 1` follows `pyMul`. -/
noncomputable def elu (x alpha : PyVal) : Except PyErr PyVal := do
  let x ← verify_type x numTypes
  let alpha ← verify_type alpha numTypes
  match toR x with
  | some v =>
      if 0 < v then pure x
      else pyMul alpha (.float (Real.exp v - 1))
  | none => .error .typeError

/-- Softplus, `softplus(x)` of the source: `log(1 + exp(x))`, a Python
float. -/
noncomputable def softplus (x : PyVal) : Except PyErr PyVal := do
  let x ← verify_type x numTypes
  match toR x with
  | some v => pure (.float (Real.log (1 + Real.exp v)))
  | none => .error .typeError

/-! ### Evaluation lemmas -/

theorem verify_type_ok {v : PyVal} {ts : List PyType}
    (h : runtimeType v ∈ ts) : verify_type v ts = .ok v := by
  simp [verify_type, h]

theorem verify_type_err {v : PyVal} {ts : List PyType}
    (h : runtimeType v ∉ ts) : verify_type v ts = .error .typeMismatch := by
  simp [verify_type, h]

theorem verify_type_cases (v : PyVal) (ts : List PyType) :
    verify_type v ts = .ok v ∨ verify_type v ts = .error .typeMismatch := by
  unfold verify_type; split <;> simp

theorem verify_type_ok_iff {v : PyVal} {ts : List PyType} :
    verify_type v ts = .ok v ↔ runtimeType v ∈ ts := by
  unfold verify_type; split <;> simp_all

theorem verify_type_eq_ok {v w : PyVal} {ts : List PyType}
    (h : verify_type v ts = .ok w) : w = v := by
  unfold verify_type at h; split at h <;> simp_all

/-- Values whose runtime type is in the accepted numeric set are exactly
the `int`, `float` and NumPy constructors, all of which are numeric. -/
theorem toR_of_mem_numTypes {v : PyVal} (h : runtimeType v ∈ numTypes) :
    ∃ r : ℝ, toR v = some r := by
  cases v <;> simp_all [runtimeType, numTypes, nptypes, toR]

theorem toRs_length {xs : List PyVal} {rs : List ℝ}
    (h : toRs xs = some rs) : rs.length = xs.length := by
  induction xs generalizing rs with
  | nil => simp [toRs] at h; simp [← h]
  | cons a as ih =>
      unfold toRs at h
      cases ha : toR a with
      | none => simp [ha] at h
      | some r =>
          cases has : toRs as with
          | none => simp [ha, has] at h
          | some rs' =>
              simp [ha, has] at h
              simp [← h, ih has]

theorem pyExpR_err {v : PyVal} {e : PyErr}
    (h : pyExpR v = .error e) : e = .typeError := by
  unfold pyExpR at h
  split at h <;> simp_all

theorem pyExpR_pos {v : PyVal} {r : ℝ}
    (h : pyExpR v = .ok r) : 0 < r := by
  unfold pyExpR at h
  split at h
  · simp at h
    exact h ▸ Real.exp_pos _
  · simp at h

theorem pyExpR_of_toR {v : PyVal} {r : ℝ}
    (h : toR v = some r) : pyExpR v = .ok (Real.exp r) := by
  simp [pyExpR, h]

theorem mapExcept_pyExpR_of_toRs {xs : List PyVal} {rs : List ℝ}
    (h : toRs xs = some rs) :
    mapExcept pyExpR xs = .ok (rs.map Real.exp) := by
  induction xs generalizing rs with
  | nil =>
      simp [toRs] at h
      subst h
      simp [mapExcept]
  | cons a as ih =>
      unfold toRs at h
      cases ha : toR a with
      | none => simp [ha] at h
      | some r =>
          cases has : toRs as with
          | none => simp [ha, has] at h
          | some rs' =>
              simp [ha, has] at h
              subst h
              unfold mapExcept
              rw [pyExpR_of_toR ha, ih has]
              simp

/-- A failing exponential pass fails with `TypeError`. -/
theorem mapExcept_pyExpR_err {xs : List PyVal} {e : PyErr}
    (h : mapExcept pyExpR xs = .error e) : e = .typeError := by
  induction xs with
  | nil => simp [mapExcept] at h
  | cons a as ih =>
      unfold mapExcept at h
      cases ha : pyExpR a with
      | error e' =>
          rw [ha] at h
          cases has : mapExcept pyExpR as <;>
            rw [has] at h <;> simp at h <;> exact h ▸ pyExpR_err ha
      | ok r =>
          rw [ha] at h
          cases has : mapExcept pyExpR as with
          | error e' =>
              rw [has] at h
              simp at h
              exact ih (h ▸ has)
          | ok l =>
              rw [has] at h
              simp at h

/-- Every element produced by the exponential pass is positive. -/
theorem mapExcept_pyExpR_pos {xs : List PyVal} {l : List ℝ}
    (h : mapExcept pyExpR xs = .ok l) : ∀ r ∈ l, 0 < r := by
  induction xs generalizing l with
  | nil =>
      simp [mapExcept] at h
      subst h
      simp
  | cons a as ih =>
      unfold mapExcept at h
      cases ha : pyExpR a with
      | error e' =>
          rw [ha] at h
          cases has : mapExcept pyExpR as <;> rw [has] at h <;> simp at h
      | ok r =>
          rw [ha] at h
          cases has : mapExcept pyExpR as with
          | error e' =>
              rw [has] at h
              simp at h
          | ok l' =>
              rw [has] at h
              simp at h
              subst h
              intro s hs
              rcases List.mem_cons.mp hs with hs | hs
              · exact hs ▸ pyExpR_pos ha
              · exact ih has s hs

theorem sum_pos_of_pos {l : List ℝ} (hne : l ≠ [])
    (hpos : ∀ r ∈ l, 0 < r) : 0 < l.sum := by
  cases l with
  | nil => exact absurd rfl hne
  | cons a as =>
      have ha : 0 < a := hpos a (List.mem_cons_self a as)
      have has : 0 ≤ as.sum :=
        List.sum_nonneg fun x hx => (hpos x (List.mem_cons_of_mem a hx)).le
      simpa [List.sum_cons] using add_pos_of_pos_of_nonneg ha has

theorem mapExcept_pyDivFloat {l : List ℝ} {S : ℝ} (hS : S ≠ 0) :
    mapExcept (fun i => pyDivFloat i S) l = .ok (l.map (· / S)) := by
  induction l with
  | nil => simp [mapExcept]
  | cons a as ih =>
      unfold mapExcept
      rw [ih]
      simp [pyDivFloat, hS]

@[simp] theorem ok_bind {α β : Type} (a : α) (f : α → Except PyErr β) :
    (Except.ok a >>= f) = f a := rfl

@[simp] theorem error_bind {α β : Type} (e : PyErr) (f : α → Except PyErr β) :
    ((Except.error e : Except PyErr α) >>= f) = Except.error e := rfl

@[simp] theorem pure_eq_ok {α : Type} (a : α) :
    (pure a : Except PyErr α) = Except.ok a := rfl

@[simp] theorem map_ok {α β : Type} (f : α → β) (a : α) :
    (Except.ok a : Except PyErr α).map f = Except.ok (f a) := rfl

@[simp] theorem map_error {α β : Type} (f : α → β) (e : PyErr) :
    (Except.error e : Except PyErr α).map f = Except.error e := rfl

@[simp] theorem fmap_ok {α β : Type} (f : α → β) (a : α) :
    (f <$> (Except.ok a : Except PyErr α)) = Except.ok (f a) := rfl

@[simp] theorem fmap_error {α β : Type} (f : α → β) (e : PyErr) :
    (f <$> (Except.error e : Except PyErr α)) = Except.error e := rfl

theorem toRs_ne_nil {xs : List PyVal} {rs : List ℝ}
    (h : toRs xs = some rs) (hne : xs ≠ []) : rs ≠ [] := by
  intro hrs
  apply hne
  have := toRs_length h
  rw [hrs] at this
  exact List.length_eq_zero.mp this.symm

theorem expSum_pos {rs : List ℝ} (hne : rs ≠ []) :
    0 < (rs.map Real.exp).sum := by
  apply sum_pos_of_pos
  · simpa using hne
  · intro r hr
    rcases List.mem_map.mp hr with ⟨s, _, hs⟩
    exact hs ▸ Real.exp_pos s

theorem softmax_list_none_eval {xs : List PyVal} {rs : List ℝ}
    (h : toRs xs = some rs) (hne : xs ≠ []) :
    softmax (.list xs) Option.none = .ok (.list ((distrOf rs).map PyVal.float)) := by
  have hexp : mapExcept pyExpR xs = .ok (rs.map Real.exp) := mapExcept_pyExpR_of_toRs h
  have hS : (0 : ℝ) < (rs.map Real.exp).sum := expSum_pos (toRs_ne_nil h hne)
  unfold softmax
  rw [verify_type_ok (by simp [runtimeType])]
  simp only [ok_bind, pyElems]
  rw [hexp]
  simp only [ok_bind]
  rw [mapExcept_pyDivFloat hS.ne.symm]
  simp [distrOf, List.map_map, Function.comp]

theorem softmax_list_int_eval {xs : List PyVal} {rs : List ℝ} (m : ℤ)
    (h : toRs xs = some rs) (hne : xs ≠ []) :
    softmax (.list xs) (Option.some (.int m)) =
      (pyIndex (distrOf rs) m).map (fun d => .list [PyVal.float d]) := by
  have hexp : mapExcept pyExpR xs = .ok (rs.map Real.exp) := mapExcept_pyExpR_of_toRs h
  have hS : (0 : ℝ) < (rs.map Real.exp).sum := expSum_pos (toRs_ne_nil h hne)
  unfold softmax
  rw [verify_type_ok (by simp [runtimeType])]
  simp only [ok_bind, pyElems]
  rw [hexp]
  simp only [ok_bind]
  rw [mapExcept_pyDivFloat hS.ne.symm]
  simp only [ok_bind]
  rw [verify_type_ok (by simp [runtimeType])]
  simp only [ok_bind]
  have hd : (rs.map Real.exp).map (· / (rs.map Real.exp).sum) = distrOf rs := by
    simp [distrOf, List.map_map, Function.comp]
  rw [hd]
  cases hi : pyIndex (distrOf rs) m <;> simp [hi]

/-- Whenever the exponential pass over the elements fails, `softmax`
propagates that failure no matter what the index argument is: the index
is only examined after the distribution has been computed. -/
theorem softmax_list_exp_err {xs : List PyVal} {e : PyErr} (n : Option PyVal)
    (h : mapExcept pyExpR xs = .error e) :
    softmax (.list xs) n = .error e := by
  unfold softmax
  rw [verify_type_ok (by simp [runtimeType])]
  simp only [ok_bind, pyElems]
  rw [h]
  simp only [error_bind]

/-! ### Indexing and arithmetic support lemmas -/

theorem pyIndexAt_neg {α : Type} {xs : List α} {i : ℤ} (h : i < 0) :
    pyIndexAt xs i = .error .indexError := by
  unfold pyIndexAt
  rw [if_neg (by omega)]

theorem pyIndexAt_oob {α : Type} {xs : List α} {i : ℤ}
    (h : (xs.length : ℤ) ≤ i) : pyIndexAt xs i = .error .indexError := by
  unfold pyIndexAt
  rw [if_pos (by omega)]
  rw [List.getElem?_eq_none (by omega)]

theorem pyIndexAt_in {α : Type} (xs : List α) (i : ℤ) (d : α)
    (h0 : 0 ≤ i) (hl : i < (xs.length : ℤ)) :
    pyIndexAt xs i = .ok (xs.getD i.toNat d) := by
  unfold pyIndexAt
  rw [if_pos h0]
  have hlt : i.toNat < xs.length := by omega
  rw [List.getElem?_eq_getElem hlt]
  rw [List.getD_eq_getElem _ _ hlt]

theorem pyIndex_nil {α : Type} (n : ℤ) :
    pyIndex ([] : List α) n = .error .indexError := by
  unfold pyIndex
  by_cases h : n < 0
  · rw [if_pos h]
    exact pyIndexAt_neg (by simp; omega)
  · by_cases h0 : n = 0
    · rw [if_neg h, h0]
      exact pyIndexAt_oob (by simp)
    · rw [if_neg h]
      exact pyIndexAt_oob (by simp; omega)

theorem pyIndex_oob {α : Type} {xs : List α} {n : ℤ}
    (h : (xs.length : ℤ) ≤ n) : pyIndex xs n = .error .indexError := by
  unfold pyIndex
  rw [if_neg (by omega)]
  exact pyIndexAt_oob h

theorem pyIndex_neg {α : Type} (xs : List α) (n : ℤ) (d : α)
    (h0 : n < 0) (hl : -(xs.length : ℤ) ≤ n) :
    pyIndex xs n = .ok (xs.getD (n + xs.length).toNat d) := by
  unfold pyIndex
  rw [if_pos h0]
  exact pyIndexAt_in xs _ d (by omega) (by omega)

theorem pyIndex_nonneg {α : Type} (xs : List α) (n : ℤ) (d : α)
    (h0 : 0 ≤ n) (hl : n < (xs.length : ℤ)) :
    pyIndex xs n = .ok (xs.getD n.toNat d) := by
  unfold pyIndex
  rw [if_neg (by omega)]
  exact pyIndexAt_in xs n d h0 hl

theorem sum_map_div (l : List ℝ) (S : ℝ) :
    (l.map (fun r => r / S)).sum = l.sum / S := by
  induction l with
  | nil => simp
  | cons a as ih => simp [ih, add_div]

/-- Sum of the softmax distribution of a nonempty list is exactly 1. -/
theorem distrOf_sum {rs : List ℝ} (hne : rs ≠ []) : (distrOf rs).sum = 1 := by
  have hS : 0 < (rs.map Real.exp).sum := expSum_pos hne
  have : distrOf rs = (rs.map Real.exp).map (fun r => r / (rs.map Real.exp).sum) := by
    simp [distrOf, List.map_map, Function.comp]
  rw [this, sum_map_div, div_self hS.ne.symm]

/-- Multiplication of two accepted numeric values succeeds, and the
numeric value of the product is the product of the values. -/
theorem pyMul_ok {a b : PyVal} {ra rb : ℝ}
    (hma : runtimeType a ∈ numTypes) (hmb : runtimeType b ∈ numTypes)
    (ha : toR a = some ra) (hb : toR b = some rb) :
    ∃ w, pyMul a b = .ok w ∧ toR w = some (ra * rb) := by
  cases a <;> cases b <;>
    simp_all [runtimeType, numTypes, nptypes, toR, pyMul]

/-! ### Per-function evaluation lemmas -/

theorem bool_not_numeric (b : Bool) : runtimeType (.bool b) ∉ numTypes := by
  simp [runtimeType, numTypes, nptypes]

theorem float_numeric (r : ℝ) : runtimeType (.float r) ∈ numTypes := by
  simp [runtimeType, numTypes]

theorem step_eval {x t : PyVal} {a b : ℝ}
    (hx : runtimeType x ∈ numTypes) (ht : runtimeType t ∈ numTypes)
    (ha : toR x = some a) (hb : toR t = some b) :
    step x t = .ok (.int (if b ≤ a then 1 else 0)) := by
  unfold step
  rw [verify_type_ok hx]
  simp only [ok_bind]
  rw [verify_type_ok ht]
  simp only [ok_bind]
  rw [ha, hb]
  rfl

theorem step_errL {x t : PyVal} (hx : runtimeType x ∉ numTypes) :
    step x t = .error .typeMismatch := by
  unfold step
  rw [verify_type_err hx]
  simp only [error_bind]

theorem step_errR {x t : PyVal} (hx : runtimeType x ∈ numTypes)
    (ht : runtimeType t ∉ numTypes) :
    step x t = .error .typeMismatch := by
  unfold step
  rw [verify_type_ok hx]
  simp only [ok_bind]
  rw [verify_type_err ht]
  simp only [error_bind]

theorem sigmoid_eval {x : PyVal} {a : ℝ}
    (hx : runtimeType x ∈ numTypes) (ha : toR x = some a) :
    sigmoid x = .ok (.float (1 / (1 + Real.exp (-a)))) := by
  unfold sigmoid
  rw [verify_type_ok hx]
  simp only [ok_bind]
  rw [ha]
  rfl

theorem sigmoid_err {x : PyVal} (hx : runtimeType x ∉ numTypes) :
    sigmoid x = .error .typeMismatch := by
  unfold sigmoid
  rw [verify_type_err hx]
  simp only [error_bind]

theorem relu_eval {x : PyVal} {a : ℝ}
    (hx : runtimeType x ∈ numTypes) (ha : toR x = some a) :
    relu x = .ok (if 0 < a then x else .int 0) := by
  unfold relu
  rw [verify_type_ok hx]
  simp only [ok_bind]
  rw [ha]
  rfl

theorem relu_err {x : PyVal} (hx : runtimeType x ∉ numTypes) :
    relu x = .error .typeMismatch := by
  unfold relu
  rw [verify_type_err hx]
  simp only [error_bind]

theorem leaky_relu_eval {x : PyVal} {a : ℝ}
    (hx : runtimeType x ∈ numTypes) (ha : toR x = some a) :
    leaky_relu x = if 0 ≤ a then .ok x else pyDivTen x := by
  unfold leaky_relu
  rw [verify_type_ok hx]
  simp only [ok_bind]
  rw [ha]
  show (if 0 ≤ a then (pure x : Except PyErr PyVal) else pyDivTen x) = _
  split <;> rfl

theorem leaky_relu_err {x : PyVal} (hx : runtimeType x ∉ numTypes) :
    leaky_relu x = .error .typeMismatch := by
  unfold leaky_relu
  rw [verify_type_err hx]
  simp only [error_bind]

theorem pyDivTen_ok {x : PyVal} {a : ℝ}
    (hx : runtimeType x ∈ numTypes) (ha : toR x = some a) :
    ∃ w, pyDivTen x = .ok w ∧ toR w = some (a / 10) := by
  cases x <;> simp_all [runtimeType, numTypes, nptypes, toR, pyDivTen]

theorem tanh_eval {x : PyVal} {a : ℝ}
    (hx : runtimeType x ∈ numTypes) (ha : toR x = some a) :
    tanh x = .ok (.float ((Real.exp a - Real.exp (-a)) / (Real.exp a + Real.exp (-a)))) := by
  unfold tanh
  rw [verify_type_ok hx]
  simp only [ok_bind]
  rw [ha]
  rfl

theorem tanh_err {x : PyVal} (hx : runtimeType x ∉ numTypes) :
    tanh x = .error .typeMismatch := by
  unfold tanh
  rw [verify_type_err hx]
  simp only [error_bind]

theorem softplus_eval {x : PyVal} {a : ℝ}
    (hx : runtimeType x ∈ numTypes) (ha : toR x = some a) :
    softplus x = .ok (.float (Real.log (1 + Real.exp a))) := by
  unfold softplus
  rw [verify_type_ok hx]
  simp only [ok_bind]
  rw [ha]
  rfl

theorem softplus_err {x : PyVal} (hx : runtimeType x ∉ numTypes) :
    softplus x = .error .typeMismatch := by
  unfold softplus
  rw [verify_type_err hx]
  simp only [error_bind]

theorem prelu_eval {x lp : PyVal} {xv : ℝ} {p : PyVal} {pv : ℝ}
    (hx : runtimeType x ∈ numTypes) (hl : runtimeType lp ∈ numTypes)
    (hxv : toR x = some xv)
    (hp : pyMul lp x = .ok p) (hpv : toR p = some pv) :
    prelu x lp = .ok (if pv < xv then x else p) := by
  unfold prelu
  rw [verify_type_ok hx]
  simp only [ok_bind]
  rw [verify_type_ok hl]
  simp only [ok_bind]
  rw [hp]
  simp only [ok_bind]
  rw [hpv, hxv]
  rfl

theorem prelu_errL {x lp : PyVal} (hx : runtimeType x ∉ numTypes) :
    prelu x lp = .error .typeMismatch := by
  unfold prelu
  rw [verify_type_err hx]
  simp only [error_bind]

theorem prelu_errR {x lp : PyVal} (hx : runtimeType x ∈ numTypes)
    (hl : runtimeType lp ∉ numTypes) :
    prelu x lp = .error .typeMismatch := by
  unfold prelu
  rw [verify_type_ok hx]
  simp only [ok_bind]
  rw [verify_type_err hl]
  simp only [error_bind]

theorem elu_eval_pos {x al : PyVal} {xv : ℝ}
    (hx : runtimeType x ∈ numTypes) (hal : runtimeType al ∈ numTypes)
    (hxv : toR x = some xv) (hpos : 0 < xv) :
    elu x al = .ok x := by
  unfold elu
  rw [verify_type_ok hx]
  simp only [ok_bind]
  rw [verify_type_ok hal]
  simp only [ok_bind]
  rw [hxv]
  show (if 0 < xv then (pure x : Except PyErr PyVal) else pyMul al (.float (Real.exp xv - 1))) = _
  rw [if_pos hpos]
  rfl

theorem elu_eval_nonpos {x al : PyVal} {xv : ℝ}
    (hx : runtimeType x ∈ numTypes) (hal : runtimeType al ∈ numTypes)
    (hxv : toR x = some xv) (hnp : ¬ 0 < xv) :
    elu x al = pyMul al (.float (Real.exp xv - 1)) := by
  unfold elu
  rw [verify_type_ok hx]
  simp only [ok_bind]
  rw [verify_type_ok hal]
  simp only [ok_bind]
  rw [hxv]
  show (if 0 < xv then (pure x : Except PyErr PyVal) else pyMul al (.float (Real.exp xv - 1))) = _
  rw [if_neg hnp]

theorem elu_errL {x al : PyVal} (hx : runtimeType x ∉ numTypes) :
    elu x al = .error .typeMismatch := by
  unfold elu
  rw [verify_type_err hx]
  simp only [error_bind]

theorem elu_errR {x al : PyVal} (hx : runtimeType x ∈ numTypes)
    (hal : runtimeType al ∉ numTypes) :
    elu x al = .error .typeMismatch := by
  unfold elu
  rw [verify_type_ok hx]
  simp only [ok_bind]
  rw [verify_type_err hal]
  simp only [error_bind]

theorem np_numeric (k : NpKind) (r : ℝ) : runtimeType (.np k r) ∈ numTypes := by
  cases k <;> simp [runtimeType, numTypes, nptypes]

theorem pyIndexAt_err {α : Type} {xs : List α} {i : ℤ} {e : PyErr}
    (h : pyIndexAt xs i = .error e) : e = .indexError := by
  unfold pyIndexAt at h
  split at h
  · split at h <;> simp_all
  · simp_all

theorem pyIndex_err {α : Type} {xs : List α} {n : ℤ} {e : PyErr}
    (h : pyIndex xs n = .error e) : e = .indexError := by
  unfold pyIndex at h
  exact pyIndexAt_err h

/-- An index argument to softmax whose runtime type is not `int` fails
with `TypeMismatch` once the distribution has been computed. -/
theorem softmax_list_badn {xs : List PyVal} {rs : List ℝ} {nv : PyVal}
    (h : toRs xs = some rs) (hne : xs ≠ [])
    (hnv : runtimeType nv ∉ [PyType.tInt]) :
    softmax (.list xs) (Option.some nv) = .error .typeMismatch := by
  have hexp : mapExcept pyExpR xs = .ok (rs.map Real.exp) := mapExcept_pyExpR_of_toRs h
  have hS : (0 : ℝ) < (rs.map Real.exp).sum := expSum_pos (toRs_ne_nil h hne)
  unfold softmax
  rw [verify_type_ok (by simp [runtimeType])]
  simp only [ok_bind, pyElems]
  rw [hexp]
  simp only [ok_bind]
  rw [mapExcept_pyDivFloat hS.ne.symm]
  simp only [ok_bind]
  rw [verify_type_err hnv]
  simp only [error_bind]

/-- Concrete out-of-range index: `softmax([1.0], 5)` fails with
`IndexError`. -/
theorem softmax_single_oob :
    softmax (.list [PyVal.float 1]) (Option.some (.int 5)) = .error .indexError := by
  rw [softmax_list_int_eval 5 (rfl : toRs [PyVal.float 1] = some [1]) (by simp)]
  rw [pyIndex_oob (by simp [distrOf])]
  simp

theorem int_of_runtimeType_tInt {nv : PyVal}
    (h : runtimeType nv = PyType.tInt) : ∃ m, nv = .int m := by
  cases nv <;> simp_all [runtimeType]

/-! ### Totality of the scalar functions on accepted inputs -/

theorem step_total {x t : PyVal} (hx : runtimeType x ∈ numTypes)
    (ht : runtimeType t ∈ numTypes) : ∃ w, step x t = .ok w := by
  obtain ⟨a, ha⟩ := toR_of_mem_numTypes hx
  obtain ⟨b, hb⟩ := toR_of_mem_numTypes ht
  exact ⟨_, step_eval hx ht ha hb⟩

theorem sigmoid_total {x : PyVal} (hx : runtimeType x ∈ numTypes) :
    ∃ w, sigmoid x = .ok w := by
  obtain ⟨a, ha⟩ := toR_of_mem_numTypes hx
  exact ⟨_, sigmoid_eval hx ha⟩

theorem relu_total {x : PyVal} (hx : runtimeType x ∈ numTypes) :
    ∃ w, relu x = .ok w := by
  obtain ⟨a, ha⟩ := toR_of_mem_numTypes hx
  exact ⟨_, relu_eval hx ha⟩

theorem leaky_relu_total {x : PyVal} (hx : runtimeType x ∈ numTypes) :
    ∃ w, leaky_relu x = .ok w := by
  obtain ⟨a, ha⟩ := toR_of_mem_numTypes hx
  rw [leaky_relu_eval hx ha]
  by_cases h : 0 ≤ a
  · rw [if_pos h]
    exact ⟨x, rfl⟩
  · rw [if_neg h]
    obtain ⟨w, hw, _⟩ := pyDivTen_ok hx ha
    exact ⟨w, hw⟩

theorem tanh_total {x : PyVal} (hx : runtimeType x ∈ numTypes) :
    ∃ w, tanh x = .ok w := by
  obtain ⟨a, ha⟩ := toR_of_mem_numTypes hx
  exact ⟨_, tanh_eval hx ha⟩

theorem softplus_total {x : PyVal} (hx : runtimeType x ∈ numTypes) :
    ∃ w, softplus x = .ok w := by
  obtain ⟨a, ha⟩ := toR_of_mem_numTypes hx
  exact ⟨_, softplus_eval hx ha⟩

theorem prelu_total {x lp : PyVal} (hx : runtimeType x ∈ numTypes)
    (hl : runtimeType lp ∈ numTypes) : ∃ w, prelu x lp = .ok w := by
  obtain ⟨a, ha⟩ := toR_of_mem_numTypes hx
  obtain ⟨b, hb⟩ := toR_of_mem_numTypes hl
  obtain ⟨p, hp, hpv⟩ := pyMul_ok hl hx hb ha
  exact ⟨_, prelu_eval hx hl ha hp hpv⟩

theorem elu_total {x al : PyVal} (hx : runtimeType x ∈ numTypes)
    (hal : runtimeType al ∈ numTypes) : ∃ w, elu x al = .ok w := by
  obtain ⟨a, ha⟩ := toR_of_mem_numTypes hx
  obtain ⟨b, hb⟩ := toR_of_mem_numTypes hal
  by_cases h : 0 < a
  · exact ⟨x, elu_eval_pos hx hal ha h⟩
  · obtain ⟨w, hw, _⟩ :=
      pyMul_ok hal (float_numeric _) hb (rfl : toR (.float (Real.exp a - 1)) = _)
    exact ⟨w, (elu_eval_nonpos hx hal ha h).trans hw⟩

/-! ### Success-or-TypeMismatch characterisations -/

theorem unary_char (f : PyVal → Except PyErr PyVal) (x : PyVal)
    (hok : runtimeType x ∈ numTypes → ∃ w, f x = .ok w)
    (herr : runtimeType x ∉ numTypes → f x = .error .typeMismatch) :
    ((∃ w, f x = .ok w) ∨ f x = .error .typeMismatch)
    ∧ (f x = .error .typeMismatch ↔ runtimeType x ∉ numTypes) := by
  by_cases h : runtimeType x ∈ numTypes
  · obtain ⟨w, hw⟩ := hok h
    refine ⟨Or.inl ⟨w, hw⟩, ?_, fun hn => absurd h hn⟩
    intro heq
    rw [hw] at heq
    cases heq
  · exact ⟨Or.inr (herr h), by simp [herr h, h]⟩

theorem binary_char (f : PyVal → PyVal → Except PyErr PyVal) (x t : PyVal)
    (hok : runtimeType x ∈ numTypes → runtimeType t ∈ numTypes → ∃ w, f x t = .ok w)
    (herrL : runtimeType x ∉ numTypes → f x t = .error .typeMismatch)
    (herrR : runtimeType x ∈ numTypes → runtimeType t ∉ numTypes →
      f x t = .error .typeMismatch) :
    ((∃ w, f x t = .ok w) ∨ f x t = .error .typeMismatch)
    ∧ (f x t = .error .typeMismatch ↔
        (runtimeType x ∉ numTypes ∨ runtimeType t ∉ numTypes)) := by
  by_cases hx : runtimeType x ∈ numTypes
  · by_cases ht : runtimeType t ∈ numTypes
    · obtain ⟨w, hw⟩ := hok hx ht
      refine ⟨Or.inl ⟨w, hw⟩, ?_, ?_⟩
      · intro heq
        rw [hw] at heq
        cases heq
      · rintro (hn | hn) <;> [exact absurd hx hn; exact absurd ht hn]
    · exact ⟨Or.inr (herrR hx ht), by simp [herrR hx ht, ht]⟩
  · exact ⟨Or.inr (herrL hx), by simp [herrL hx, hx]⟩

/-- Every failure of softmax is a `TypeMismatch`, a `TypeError` or an
`IndexError` (never, e.g., a `ZeroDivisionError`). -/
theorem softmax_err_kinds (v : PyVal) (n : Option PyVal) (e : PyErr)
    (he : softmax v n = .error e) :
    e = .typeMismatch ∨ e = .typeError ∨ e = .indexError := by
  unfold softmax at he
  by_cases hv : runtimeType v ∈ [PyType.tList, PyType.tNdarray]
  case neg =>
    rw [verify_type_err hv] at he
    simp only [error_bind] at he
    simp at he
    exact Or.inl he.symm
  case pos =>
    rw [verify_type_ok hv] at he
    simp only [ok_bind] at he
    obtain ⟨xs, hxs⟩ : ∃ xs, pyElems v = some xs := by
      cases v <;> simp_all [runtimeType, pyElems]
    rw [hxs] at he
    dsimp only [] at he
    cases hm : mapExcept pyExpR xs with
    | error e2 =>
        rw [hm] at he
        simp only [error_bind] at he
        simp at he
        exact Or.inr (Or.inl (he ▸ mapExcept_pyExpR_err hm))
    | ok l =>
        rw [hm] at he
        simp only [ok_bind] at he
        obtain ⟨l2, hl2⟩ : ∃ l2, mapExcept (fun i => pyDivFloat i l.sum) l = .ok l2 := by
          cases l with
          | nil => exact ⟨[], rfl⟩
          | cons a as =>
              exact ⟨_, mapExcept_pyDivFloat
                (sum_pos_of_pos (by simp) (mapExcept_pyExpR_pos hm)).ne.symm⟩
        rw [hl2] at he
        simp only [ok_bind] at he
        cases n with
        | none => simp at he
        | some nv =>
            dsimp only [] at he
            by_cases hnv : runtimeType nv ∈ [PyType.tInt]
            · rw [verify_type_ok hnv] at he
              simp only [ok_bind] at he
              obtain ⟨m, rfl⟩ := int_of_runtimeType_tInt (by simpa using hnv)
              dsimp only [] at he
              cases hi : pyIndex l2 m with
              | error e3 =>
                  rw [hi] at he
                  simp only [error_bind] at he
                  simp at he
                  exact Or.inr (Or.inr (he ▸ pyIndex_err hi))
              | ok d =>
                  rw [hi] at he
                  simp at he
            · rw [verify_type_err hnv] at he
              simp only [error_bind] at he
              simp at he
              exact Or.inl he.symm

/-! ### Claim theorems -/

/-- C1: for every non-empty list `x` of accepted numeric values,
`softmax(x)` returns the sequence `e^(x_i) / Σ e^(x_j)` (the exponential
of each element divided by the sum of all exponentials), whose elements
sum to 1 (exactly, in the idealised real semantics, hence within
epsilon); and for every integer `n`, `softmax(x, n)` returns the
single-element sequence `[softmax(x)[n]]` (with Python's indexing
semantics for `distr[n]`), not a scalar. -/
theorem claim_C1 (xs : List PyVal) (rs : List ℝ)
    (h : toRs xs = some rs) (hne : xs ≠ []) :
    softmax (.list xs) Option.none =
      .ok (.list ((rs.map (fun r => Real.exp r / (rs.map Real.exp).sum)).map PyVal.float))
    ∧ (rs.map (fun r => Real.exp r / (rs.map Real.exp).sum)).sum = 1
    ∧ ∀ n : ℤ, softmax (.list xs) (Option.some (.int n)) =
        (pyIndex (rs.map (fun r => Real.exp r / (rs.map Real.exp).sum)) n).map
          (fun d => .list [PyVal.float d]) := by
  refine ⟨softmax_list_none_eval h hne, ?_, fun n => softmax_list_int_eval n h hne⟩
  exact distrOf_sum (toRs_ne_nil h hne)

theorem claim_C1_witness :
    toRs [PyVal.float 1, PyVal.float 1, PyVal.float 1] = some [1, 1, 1]
    ∧ [PyVal.float 1, PyVal.float 1, PyVal.float 1] ≠ ([] : List PyVal)
    ∧ (([(1 : ℝ), 1, 1].map (fun r => Real.exp r / ([(1 : ℝ), 1, 1].map Real.exp).sum)).sum = 1) :=
  ⟨rfl, by simp,
    (claim_C1 [PyVal.float 1, PyVal.float 1, PyVal.float 1] [1, 1, 1] rfl (by simp)).2.1⟩

/-- C3: for every pair of accepted numeric values, `step(x, threshold)`
returns the Python integer 1 if the value of `x` is at least the value of
`threshold` and 0 otherwise; the boundary case of equal values returns 1,
and each argument is independently validated (an invalid value in either
position alone already fails with `TypeMismatch`). -/
theorem claim_C3 (x t : PyVal) (a b : ℝ)
    (hx : runtimeType x ∈ numTypes) (ht : runtimeType t ∈ numTypes)
    (ha : toR x = some a) (hb : toR t = some b) :
    step x t = .ok (.int (if b ≤ a then 1 else 0))
    ∧ (a = b → step x t = .ok (.int 1))
    ∧ ∀ u : PyVal, runtimeType u ∉ numTypes →
        step u t = .error .typeMismatch ∧ step x u = .error .typeMismatch := by
  refine ⟨step_eval hx ht ha hb, ?_, fun u hu => ⟨step_errL hu, step_errR hx hu⟩⟩
  intro hab
  rw [step_eval hx ht ha hb, if_pos (le_of_eq hab.symm)]

theorem claim_C3_witness :
    runtimeType (PyVal.float 2) ∈ numTypes
    ∧ toR (PyVal.float 2) = some 2
    ∧ step (PyVal.float 2) (PyVal.float 2) = .ok (.int 1) :=
  ⟨by decide, rfl,
    (claim_C3 (PyVal.float 2) (PyVal.float 2) 2 2 (by decide) (by decide) rfl rfl).2.1 rfl⟩

/-- C4: for every accepted `x` and `alpha`, `elu(x, alpha)` returns `x`
itself when its value is strictly positive, and `alpha * (e^x - 1)`
otherwise; at value 0 the else-branch is taken and produces
`alpha * (e^0 - 1) = 0`, so `elu(0, alpha)` has numeric value 0 for every
accepted `alpha`. -/
theorem claim_C4 (x al : PyVal) (xv av : ℝ)
    (hx : runtimeType x ∈ numTypes) (hal : runtimeType al ∈ numTypes)
    (hxv : toR x = some xv) (hav : toR al = some av) :
    (0 < xv → elu x al = .ok x)
    ∧ (¬ 0 < xv → ∃ w, elu x al = .ok w ∧ toR w = some (av * (Real.exp xv - 1)))
    ∧ (xv = 0 → ∃ w, elu x al = .ok w ∧ toR w = some 0) := by
  refine ⟨fun hpos => elu_eval_pos hx hal hxv hpos, ?_, ?_⟩
  · intro hnp
    obtain ⟨w, hw, hwv⟩ :=
      pyMul_ok hal (float_numeric _) hav (rfl : toR (.float (Real.exp xv - 1)) = _)
    exact ⟨w, (elu_eval_nonpos hx hal hxv hnp).trans hw, hwv⟩
  · intro h0
    obtain ⟨w, hw, hwv⟩ :=
      pyMul_ok hal (float_numeric _) hav (rfl : toR (.float (Real.exp xv - 1)) = _)
    refine ⟨w, (elu_eval_nonpos hx hal hxv (by rw [h0]; exact lt_irrefl 0)).trans hw, ?_⟩
    rw [hwv, h0]
    simp [Real.exp_zero]

theorem claim_C4_witness :
    runtimeType (PyVal.float 0) ∈ numTypes
    ∧ runtimeType (PyVal.float 1) ∈ numTypes
    ∧ ∃ w, elu (PyVal.float 0) (PyVal.float 1) = .ok w ∧ toR w = some 0 :=
  ⟨by decide, by decide,
    (claim_C4 (PyVal.float 0) (PyVal.float 1) 0 1 (by decide) (by decide) rfl rfl).2.2 rfl⟩

/-- C10: `relu` is idempotent — for every value from the accepted
numeric-type set, applying `relu` to the result of `relu` yields the same
result. -/
theorem claim_C10 (x : PyVal) (h : runtimeType x ∈ numTypes) :
    (relu x >>= relu) = relu x := by
  obtain ⟨v, hv⟩ := toR_of_mem_numTypes h
  have hrx : relu x = .ok (if 0 < v then x else .int 0) := relu_eval h hv
  have hzero : relu (.int 0) = .ok (.int 0) := by
    rw [relu_eval (x := PyVal.int 0) (by decide) rfl]
    simp
  rw [hrx]
  by_cases h0 : 0 < v
  · rw [if_pos h0]
    simp only [ok_bind]
    rw [hrx, if_pos h0]
  · rw [if_neg h0]
    simp only [ok_bind]
    rw [hzero]

theorem claim_C10_witness :
    runtimeType (PyVal.float 5) ∈ numTypes
    ∧ (relu (PyVal.float 5) >>= relu) = relu (PyVal.float 5) :=
  ⟨by decide, claim_C10 (PyVal.float 5) (by decide)⟩

/-- C2 counterexample: `softmax([1.0], 5)` — both arguments of accepted
types — fails with `IndexError`, which is a failure kind other than
`TypeMismatch`, refuting the claim that `TypeMismatch` is the only
failure kind ever raised. -/
theorem claim_C2_counterexample :
    softmax (.list [PyVal.float 1]) (Option.some (.int 5)) = .error .indexError
    ∧ PyErr.indexError ≠ PyErr.typeMismatch :=
  ⟨softmax_single_oob, by simp⟩

/-- C2 (amended): every scalar function either fully succeeds or fails
with `TypeMismatch`, raised exactly when an argument's runtime type is
outside the accepted set; `softmax`, however, can additionally fail with
`TypeError` (non-numeric element reached by the arithmetic) or
`IndexError` (index argument out of range) — and with no further failure
kind beyond those three. -/
theorem claim_C2_amended (x t lp al v : PyVal) (n : Option PyVal) :
    (((∃ w, step x t = .ok w) ∨ step x t = .error .typeMismatch)
      ∧ (step x t = .error .typeMismatch ↔
          (runtimeType x ∉ numTypes ∨ runtimeType t ∉ numTypes)))
    ∧ (((∃ w, sigmoid x = .ok w) ∨ sigmoid x = .error .typeMismatch)
      ∧ (sigmoid x = .error .typeMismatch ↔ runtimeType x ∉ numTypes))
    ∧ (((∃ w, relu x = .ok w) ∨ relu x = .error .typeMismatch)
      ∧ (relu x = .error .typeMismatch ↔ runtimeType x ∉ numTypes))
    ∧ (((∃ w, leaky_relu x = .ok w) ∨ leaky_relu x = .error .typeMismatch)
      ∧ (leaky_relu x = .error .typeMismatch ↔ runtimeType x ∉ numTypes))
    ∧ (((∃ w, tanh x = .ok w) ∨ tanh x = .error .typeMismatch)
      ∧ (tanh x = .error .typeMismatch ↔ runtimeType x ∉ numTypes))
    ∧ (((∃ w, prelu x lp = .ok w) ∨ prelu x lp = .error .typeMismatch)
      ∧ (prelu x lp = .error .typeMismatch ↔
          (runtimeType x ∉ numTypes ∨ runtimeType lp ∉ numTypes)))
    ∧ (((∃ w, elu x al = .ok w) ∨ elu x al = .error .typeMismatch)
      ∧ (elu x al = .error .typeMismatch ↔
          (runtimeType x ∉ numTypes ∨ runtimeType al ∉ numTypes)))
    ∧ (((∃ w, softplus x = .ok w) ∨ softplus x = .error .typeMismatch)
      ∧ (softplus x = .error .typeMismatch ↔ runtimeType x ∉ numTypes))
    ∧ (∀ e, softmax v n = .error e →
        e = .typeMismatch ∨ e = .typeError ∨ e = .indexError) := by
  refine ⟨?_, ?_, ?_, ?_, ?_, ?_, ?_, ?_, fun e he => softmax_err_kinds v n e he⟩
  · exact binary_char (fun a b => step a b) x t (fun hx ht => step_total hx ht)
      (fun hx => step_errL hx) (fun hx ht => step_errR hx ht)
  · exact unary_char sigmoid x (fun hx => sigmoid_total hx) (fun hx => sigmoid_err hx)
  · exact unary_char relu x (fun hx => relu_total hx) (fun hx => relu_err hx)
  · exact unary_char leaky_relu x (fun hx => leaky_relu_total hx)
      (fun hx => leaky_relu_err hx)
  · exact unary_char tanh x (fun hx => tanh_total hx) (fun hx => tanh_err hx)
  · exact binary_char prelu x lp (fun hx hl => prelu_total hx hl)
      (fun hx => prelu_errL hx) (fun hx hl => prelu_errR hx hl)
  · exact binary_char elu x al (fun hx hal => elu_total hx hal)
      (fun hx => elu_errL hx) (fun hx hal => elu_errR hx hal)
  · exact unary_char softplus x (fun hx => softplus_total hx) (fun hx => softplus_err hx)

theorem claim_C2_amended_witness :
    softmax (.list [PyVal.float 1]) (Option.some (.int 5)) = .error .indexError
    ∧ (PyErr.indexError = .typeMismatch ∨ PyErr.indexError = .typeError
        ∨ PyErr.indexError = .indexError) :=
  ⟨softmax_single_oob,
    (claim_C2_amended (.float 1) (.float 0) (.float 0) (.float 0)
        (.list [PyVal.float 1]) (Option.some (.int 5))).2.2.2.2.2.2.2.2
      .indexError softmax_single_oob⟩

/-- C5 counterexample: `softmax([])` does not fail at all — the
comprehensions are empty, so no division is executed and the call returns
the empty list, refuting the claimed division-by-zero failure. -/
theorem claim_C5_counterexample :
    softmax (.list []) Option.none = .ok (.list []) := rfl

/-- C5 (amended): passing the empty sequence to `softmax` performs no
division (the comprehensions are empty): without an index the call
returns the empty list, and with an integer index it fails with
`IndexError` (from indexing the empty distribution), not with a
division-by-zero error. -/
theorem claim_C5_amended :
    softmax (.list []) Option.none = .ok (.list [])
    ∧ ∀ n : ℤ, softmax (.list []) (Option.some (.int n)) = .error .indexError := by
  refine ⟨rfl, fun n => ?_⟩
  show (pyIndex ([] : List ℝ) n >>=
      fun d => (pure (PyVal.list [PyVal.float d]) : Except PyErr PyVal))
      = Except.error PyErr.indexError
  rw [pyIndex_nil]
  simp only [error_bind]

theorem claim_C5_amended_witness :
    softmax (.list []) (Option.some (.int 3)) = .error .indexError :=
  claim_C5_amended.2 3

/-- C6: the Type Verifier (modelled from the spec, since `classtools` is
not part of this repository's sources) checks membership by exact
runtime-type match with no coercion: it returns the value unchanged on
success, fails with `TypeMismatch` otherwise, and in particular a boolean
is not treated as an integer, so passing a boolean to any function whose
accepted set contains the integer kinds (all eight scalar functions, and
softmax's index argument) fails with `TypeMismatch`. -/
theorem claim_C6 (v w t2 : PyVal) (ts : List PyType) (b : Bool) :
    (verify_type v ts = .ok v ∨ verify_type v ts = .error .typeMismatch)
    ∧ (verify_type v ts = .ok w → w = v)
    ∧ (verify_type v ts = .ok v ↔ runtimeType v ∈ ts)
    ∧ verify_type (.bool b) numTypes = .error .typeMismatch
    ∧ step (.bool b) t2 = .error .typeMismatch
    ∧ sigmoid (.bool b) = .error .typeMismatch
    ∧ relu (.bool b) = .error .typeMismatch
    ∧ leaky_relu (.bool b) = .error .typeMismatch
    ∧ tanh (.bool b) = .error .typeMismatch
    ∧ prelu (.bool b) t2 = .error .typeMismatch
    ∧ elu (.bool b) t2 = .error .typeMismatch
    ∧ softplus (.bool b) = .error .typeMismatch
    ∧ softmax (.list [PyVal.float 1]) (Option.some (.bool b)) = .error .typeMismatch :=
  ⟨verify_type_cases v ts,
   fun h => verify_type_eq_ok h,
   verify_type_ok_iff,
   verify_type_err (bool_not_numeric b),
   step_errL (bool_not_numeric b),
   sigmoid_err (bool_not_numeric b),
   relu_err (bool_not_numeric b),
   leaky_relu_err (bool_not_numeric b),
   tanh_err (bool_not_numeric b),
   prelu_errL (bool_not_numeric b),
   elu_errL (bool_not_numeric b),
   softplus_err (bool_not_numeric b),
   softmax_list_badn (rfl : toRs [PyVal.float 1] = some [1]) (by simp)
     (by simp [runtimeType])⟩

theorem claim_C6_witness :
    verify_type (.int 3) numTypes = .ok (.int 3)
    ∧ verify_type (.bool true) numTypes = .error .typeMismatch :=
  ⟨(claim_C6 (.int 3) (.int 3) (.int 0) numTypes true).2.2.1.mpr (by decide),
   (claim_C6 (.int 3) (.int 3) (.int 0) numTypes true).2.2.2.1⟩

/-- C7 counterexample: `leaky_relu` applied to a 16-bit float computes
`x / 10` in the input's own width and returns a `float16`, not a
double-precision Python float — refuting the claim that all arithmetic is
performed in double precision regardless of the input's width. -/
theorem claim_C7_counterexample :
    (leaky_relu (PyVal.np .f16 (-1))).map runtimeType = .ok (PyType.tNp .f16) := by
  rw [leaky_relu_eval (x := PyVal.np .f16 (-1)) (np_numeric _ _) rfl]
  rw [if_neg (by norm_num)]
  rfl

/-- C7 (amended): the functions whose formula goes through `math.exp` /
`math.log` (sigmoid, tanh, softplus — and softmax's entries and elu's
exponential branch, established elsewhere) convert to double precision
and return Python floats regardless of the input's width, but
`leaky_relu` (like relu and prelu) computes in the input's own kind: on a
`float16` input it returns a `float16`, dividing in the input's width. -/
theorem claim_C7_amended (x : PyVal) (hx : runtimeType x ∈ numTypes) (r : ℝ) :
    (∃ s, sigmoid x = .ok (.float s))
    ∧ (∃ s, tanh x = .ok (.float s))
    ∧ (∃ s, softplus x = .ok (.float s))
    ∧ leaky_relu (PyVal.np .f16 r) = .ok (.np .f16 (if 0 ≤ r then r else r / 10)) := by
  obtain ⟨a, ha⟩ := toR_of_mem_numTypes hx
  refine ⟨⟨_, sigmoid_eval hx ha⟩, ⟨_, tanh_eval hx ha⟩, ⟨_, softplus_eval hx ha⟩, ?_⟩
  rw [leaky_relu_eval (x := PyVal.np .f16 r) (np_numeric _ _) rfl]
  by_cases h : 0 ≤ r
  · rw [if_pos h, if_pos h]
  · rw [if_neg h, if_neg h]
    rfl

theorem claim_C7_amended_witness :
    runtimeType (PyVal.float 0) ∈ numTypes
    ∧ ∃ s, sigmoid (PyVal.float 0) = .ok (.float s) :=
  ⟨by decide, (claim_C7_amended (PyVal.float 0) (by decide) 1).1⟩

/-- C8: the index argument `n` of softmax is type-checked only after the
full distribution has been computed (any failure of the exponential pass
over the elements is reported instead, whatever `n` is), and a negative
in-range integer index counts from the end: `softmax(x, n)` returns the
single-element list holding the distribution entry at position
`len(x) + n`. -/
theorem claim_C8 (xs : List PyVal) (rs : List ℝ) (n : ℤ)
    (h : toRs xs = some rs) (hne : xs ≠ [])
    (hn0 : n < 0) (hnl : -(xs.length : ℤ) ≤ n) :
    softmax (.list xs) (Option.some (.int n)) =
      .ok (.list [PyVal.float ((distrOf rs).getD (n + (xs.length : ℤ)).toNat 0)])
    ∧ ∀ (ys : List PyVal) (nv : PyVal) (e : PyErr),
        mapExcept pyExpR ys = .error e →
        softmax (.list ys) (Option.some nv) = .error e := by
  constructor
  · rw [softmax_list_int_eval n h hne]
    have hlen : ((distrOf rs).length : ℤ) = (xs.length : ℤ) := by
      simp [distrOf, toRs_length h]
    rw [pyIndex_neg _ _ 0 hn0 (by rw [hlen]; exact hnl)]
    rw [hlen]
    simp
  · exact fun ys nv e hee => softmax_list_exp_err _ hee

theorem claim_C8_witness :
    toRs [PyVal.float 1, PyVal.float 2] = some [1, 2]
    ∧ ([PyVal.float 1, PyVal.float 2] ≠ ([] : List PyVal))
    ∧ ((-1 : ℤ) < 0)
    ∧ (-((List.length [PyVal.float 1, PyVal.float 2] : ℕ) : ℤ) ≤ -1)
    ∧ softmax (.list [PyVal.str "a"]) (Option.some PyVal.pyNone) = .error .typeError :=
  ⟨rfl, by simp, by decide, by decide,
   (claim_C8 [PyVal.float 1, PyVal.float 2] [1, 2] (-1) rfl (by simp)
       (by decide) (by decide)).2
     [PyVal.str "a"] PyVal.pyNone .typeError rfl⟩

/-- C9: softmax validates only that its first argument is a list or a
NumPy array, never the types of the elements — every list passes the Type
Verifier — and any failure of `softmax(x)` on a list input is the
arithmetic's `TypeError`, never a `TypeMismatch`. -/
theorem claim_C9 (xs : List PyVal) :
    verify_type (.list xs) [PyType.tList, PyType.tNdarray] = .ok (.list xs)
    ∧ ∀ e, softmax (.list xs) Option.none = .error e → e = .typeError := by
  refine ⟨verify_type_ok (by simp [runtimeType]), fun e he => ?_⟩
  unfold softmax at he
  rw [verify_type_ok (by simp [runtimeType])] at he
  simp only [ok_bind, pyElems] at he
  cases hm : mapExcept pyExpR xs with
  | error e2 =>
      rw [hm] at he
      simp only [error_bind] at he
      simp at he
      exact he ▸ mapExcept_pyExpR_err hm
  | ok l =>
      rw [hm] at he
      simp only [ok_bind] at he
      obtain ⟨l2, hl2⟩ : ∃ l2, mapExcept (fun i => pyDivFloat i l.sum) l = .ok l2 := by
        cases l with
        | nil => exact ⟨[], rfl⟩
        | cons a as =>
            exact ⟨_, mapExcept_pyDivFloat
              (sum_pos_of_pos (by simp) (mapExcept_pyExpR_pos hm)).ne.symm⟩
      rw [hl2] at he
      simp at he

theorem claim_C9_witness :
    softmax (.list [PyVal.str "a"]) Option.none = .error .typeError
    ∧ PyErr.typeError = PyErr.typeError :=
  ⟨softmax_list_exp_err Option.none rfl,
   (claim_C9 [PyVal.str "a"]).2 .typeError (softmax_list_exp_err Option.none rfl)⟩

end Functions
